import Mathlib

/-!
Verification development for the DevOrbit heuristic story-point estimation
and cross-source correlation engine.

The estimator core (class StoryPointEstimator) and the activity correlator
(function correlateLinearWithGitHub in CommentAnalysis.jsx) are embedded
below.  JavaScript numbers are modelled by the type JNum: a rational
payload plus the three special values Infinity, -Infinity and NaN, with
the IEEE-style propagation rules that matter for this code (division by
zero, NaN contagion, truthiness of the logical-or fallback idiom).  All
finite arithmetic is exact rational arithmetic; Math.sqrt is modelled by
a nonnegative rational square root that is exact on perfect squares
(the theorems below use only its sign and its value at such points).
Dates are modelled as millisecond timestamps.
-/

/-- Nonnegative rational square root used to model Math.sqrt on finite
values: exact whenever the argument is the square of a rational, and in
any case nonnegative, which is all the development relies on. -/
def ratSqrt (q : ℚ) : ℚ :=
  (Nat.sqrt q.num.toNat : ℚ) / (Nat.sqrt q.den : ℚ)

/-- JavaScript number: a finite rational, an infinity, or NaN. -/
inductive JNum where
  | num (q : ℚ)
  | inf
  | ninf
  | nan
deriving DecidableEq, Repr

namespace JNum

/-- JavaScript truthiness of a number: 0 and NaN are falsy. -/
def truthy : JNum → Bool
  | num q => decide (q ≠ 0)
  | nan => false
  | _ => true

/-- The `x || d` fallback idiom on numbers. -/
def jor (a b : JNum) : JNum := if truthy a then a else b

/-- Negation. -/
def jneg : JNum → JNum
  | num q => num (-q)
  | inf => ninf
  | ninf => inf
  | nan => nan

/-- Addition with IEEE special-value rules. -/
def jadd : JNum → JNum → JNum
  | nan, _ => nan
  | _, nan => nan
  | inf, ninf => nan
  | ninf, inf => nan
  | inf, _ => inf
  | _, inf => inf
  | ninf, _ => ninf
  | _, ninf => ninf
  | num a, num b => num (a + b)

/-- Subtraction. -/
def jsub (a b : JNum) : JNum := jadd a (jneg b)

/-- Multiplication with IEEE special-value rules. -/
def jmul : JNum → JNum → JNum
  | nan, _ => nan
  | _, nan => nan
  | num a, num b => num (a * b)
  | num a, inf => if 0 < a then inf else if a < 0 then ninf else nan
  | inf, num b => if 0 < b then inf else if b < 0 then ninf else nan
  | num a, ninf => if 0 < a then ninf else if a < 0 then inf else nan
  | ninf, num b => if 0 < b then ninf else if b < 0 then inf else nan
  | inf, inf => inf
  | inf, ninf => ninf
  | ninf, inf => ninf
  | ninf, ninf => inf

/-- Division with IEEE special-value rules (signed zero is identified
with zero, so finite/0 follows the sign of the numerator). -/
def jdiv : JNum → JNum → JNum
  | nan, _ => nan
  | _, nan => nan
  | num a, num b =>
      if b ≠ 0 then num (a / b)
      else if 0 < a then inf
      else if a < 0 then ninf
      else nan
  | num _, inf => num 0
  | num _, ninf => num 0
  | inf, num b => if 0 ≤ b then inf else ninf
  | ninf, num b => if 0 ≤ b then ninf else inf
  | inf, _ => nan
  | ninf, _ => nan

/-- Strict comparison; any comparison with NaN is false. -/
def jlt : JNum → JNum → Bool
  | nan, _ => false
  | _, nan => false
  | num a, num b => decide (a < b)
  | num _, inf => true
  | inf, num _ => false
  | num _, ninf => false
  | ninf, num _ => true
  | ninf, inf => true
  | inf, ninf => false
  | inf, inf => false
  | ninf, ninf => false

/-- Math.max: NaN if either argument is NaN, otherwise the larger. -/
def jmax (a b : JNum) : JNum :=
  if a = nan || b = nan then nan else if jlt a b then b else a

/-- Math.min: NaN if either argument is NaN, otherwise the smaller. -/
def jmin (a b : JNum) : JNum :=
  if a = nan || b = nan then nan else if jlt b a then b else a

/-- Math.sqrt: NaN on negatives and on NaN, Infinity at Infinity,
`ratSqrt` on nonnegative finite values. -/
def jsqrt : JNum → JNum
  | nan => nan
  | ninf => nan
  | inf => inf
  | num q => if q < 0 then nan else num (ratSqrt q)

end JNum

/-- The `s || d` fallback idiom on an optional string (empty string is falsy). -/
def strOr (o : Option String) (d : String) : String :=
  match o with
  | some s => if s = "" then d else s
  | none => d

/-- JavaScript String.prototype.includes: the needle occurs as a
contiguous substring of the haystack. -/
def jsIncludes (s pat : String) : Bool :=
  decide (List.IsInfix pat.toList s.toList)

/-- JavaScript String.prototype.toLowerCase, character by character. -/
def jsToLower (s : String) : String := String.mk (s.toList.map Char.toLower)

/-- Split a character list at every space (JavaScript split keeps empty
fragments between consecutive separators and at the ends). -/
def splitOnSpaceAux : List Char → List (List Char)
  | [] => [[]]
  | c :: t =>
    let r := splitOnSpaceAux t
    if c = ' ' then [] :: r
    else
      match r with
      | [] => [[c]]
      | w :: ws => (c :: w) :: ws

/-- JavaScript String.prototype.split(" "). -/
def jsSplit (s : String) : List String := (splitOnSpaceAux s.toList).map String.mk

/-- Milliseconds per day, the divisor used to turn Date differences into days. -/
def msPerDay : ℚ := 1000 * 60 * 60 * 24

/-- A Linear issue as consumed by StoryPointEstimator.  `labels` is the
list of label names reachable through labels.edges[].node.name (none when
labels or labels.edges is absent); `team` is team.id; `assignee` is
assignee.id; `stateType` is state.type; dates are millisecond timestamps
(completedAt is only read on completed issues). -/
structure Issue where
  id : String
  title : String
  description : Option String
  labels : Option (List String)
  priority : Option Nat
  team : Option String
  estimate : Option ℚ
  stateType : Option String
  assignee : Option String
  createdAt : ℚ
  completedAt : ℚ
deriving DecidableEq, Repr

/-- The numeric value of a possibly-absent estimate; `undefined > 0` is
false in JavaScript, and the code only reads `estimate` after checking
`estimate > 0`, so absent is identified with 0 in sums. -/
def estVal (i : Issue) : ℚ := i.estimate.getD 0

/-- `issue.estimate > 0` (false when the field is absent, since
`undefined > 0` is false). -/
def estPos (i : Issue) : Bool := decide (0 < estVal i)

/-- Completion time of one issue in days: (completedAt - createdAt)/86400000. -/
def completionDays (i : Issue) : ℚ := (i.completedAt - i.createdAt) / msPerDay

/-- The filter in calculatePersonalVelocity: completed, assigned to the
user, with a positive estimate. -/
def qualifyingIssues (issues : List Issue) (userId : String) : List Issue :=
  issues.filter (fun i =>
    i.stateType == some "completed" && i.assignee == some userId && estPos i)

/-- Mean completion time in days over a list of issues (the value the
reduce-then-divide in the source computes; division by a zero length
only ever happens on nonempty lists in the callers). -/
def meanCompletionDays (issues : List Issue) : ℚ :=
  (issues.map completionDays).sum / issues.length

/-- The personal velocity profile.  The source field name for the last
numeric field is `accuracy`. -/
structure Velocity where
  avgPointsPerDay : JNum
  avgTimePerPoint : JNum
  complexity : String
  accuracy : JNum
deriving DecidableEq, Repr

/-- determineComplexityPreference: bucket the mean past estimate. -/
def determineComplexityPreference (issues : List Issue) : String :=
  let avgPoints := (issues.map estVal).sum / issues.length
  if avgPoints ≤ 3 then "simple"
  else if avgPoints ≤ 8 then "medium"
  else "complex"

/-- calculateEstimateAccuracy: 1 minus the coefficient of variation of
completion times, floored at 0.1 by Math.max (which propagates NaN). -/
def calculateEstimateAccuracy (issues : List Issue) : JNum :=
  let completionTimes := issues.map completionDays
  let avgTime : ℚ := completionTimes.sum / completionTimes.length
  let variance : ℚ :=
    (completionTimes.map (fun t => (t - avgTime) ^ 2)).sum / completionTimes.length
  let standardDeviation := JNum.jsqrt (JNum.num variance)
  JNum.jmax (JNum.num (1 / 10))
    (JNum.jsub (JNum.num 1) (JNum.jdiv standardDeviation (JNum.num avgTime)))

/-- calculatePersonalVelocity: the cold-start default on an empty
qualifying history, otherwise throughput and inverse-throughput with the
`|| 2` / `|| 1` fallback idiom (which replaces only falsy results, i.e.
0 and NaN). -/
def calculatePersonalVelocity (issues : List Issue) (userId : String) : Velocity :=
  let completedIssues := qualifyingIssues issues userId
  if completedIssues.length = 0 then
    { avgPointsPerDay := JNum.num 2
      avgTimePerPoint := JNum.num 1
      complexity := "medium"
      accuracy := JNum.num (1 / 2) }
  else
    let totalPoints := (completedIssues.map estVal).sum
    let avgCompletionTime := meanCompletionDays completedIssues
    { avgPointsPerDay :=
        JNum.jor
          (JNum.jdiv (JNum.num totalPoints)
            (JNum.num (avgCompletionTime * completedIssues.length)))
          (JNum.num 2)
      avgTimePerPoint :=
        JNum.jor
          (JNum.jdiv (JNum.num avgCompletionTime)
            (JNum.num (totalPoints / completedIssues.length)))
          (JNum.num 1)
      complexity := determineComplexityPreference completedIssues
      accuracy := calculateEstimateAccuracy completedIssues }

/-- The Fibonacci estimation scale. -/
def FIBONACCI_SEQUENCE : List ℚ := [1, 2, 3, 5, 8, 13, 21, 34]

/-- Keywords that raise the text-complexity score by 0.5 each. -/
def technicalKeywords : List String :=
  ["refactor", "architecture", "database", "migration", "integration",
   "api", "security", "performance", "optimization", "algorithm",
   "deploy", "infrastructure", "testing", "automation"]

/-- Keywords that lower the text-complexity score by 0.2 each. -/
def simpleKeywords : List String :=
  ["fix", "update", "change", "add", "remove", "typo", "text",
   "button", "color", "style", "copy", "documentation"]

/-- Keywords that raise the text-complexity score by 0.3 each. -/
def complexKeywords : List String :=
  ["implement", "build", "create", "design", "develop",
   "complex", "multiple", "system", "workflow", "process"]

/-- Label substrings that raise the label-complexity score by 0.5. -/
def complexLabels : List String :=
  ["epic", "feature", "architecture", "breaking-change", "research"]

/-- Label substrings that lower the label-complexity score by 0.2. -/
def simpleLabels : List String := ["bug", "hotfix", "documentation", "ui", "copy"]

/-- analyzeTextComplexity: keyword and length heuristics over the
lowercased concatenation of title and description, clamped to [0.5, 3]. -/
def analyzeTextComplexity (title : String) (description : Option String) : ℚ :=
  let combinedText := jsToLower (title ++ " " ++ strOr description "")
  let s1 := technicalKeywords.foldl
    (fun sc k => if jsIncludes combinedText k then sc + 1 / 2 else sc) 1
  let s2 := simpleKeywords.foldl
    (fun sc k => if jsIncludes combinedText k then sc - 1 / 5 else sc) s1
  let s3 := complexKeywords.foldl
    (fun sc k => if jsIncludes combinedText k then sc + 3 / 10 else sc) s2
  let wordCount := (jsSplit combinedText).length
  let s4 := if wordCount > 50 then s3 + 1 / 2 else s3
  let s5 := if wordCount > 100 then s4 + 1 / 2 else s4
  max (1 / 2) (min 3 s5)

/-- analyzeLabelComplexity: 1 when labels.edges is absent, otherwise a
per-label substring scan clamped to [0.5, 2]. -/
def analyzeLabelComplexity (labels : Option (List String)) : ℚ :=
  match labels with
  | none => 1
  | some names =>
    let labelNames := names.map jsToLower
    let score := labelNames.foldl
      (fun sc label =>
        let sc1 := if complexLabels.any (fun c => jsIncludes label c) then sc + 1 / 2 else sc
        if simpleLabels.any (fun s => jsIncludes label s) then sc1 - 1 / 5 else sc1)
      1
    max (1 / 2) (min 2 score)

/-- analyzePriority: the weight table keyed by Linear priority, with
1.0 as the fallback for any other (or absent) priority. -/
def analyzePriority (priority : Option Nat) : ℚ :=
  match priority with
  | some 1 => 3 / 2
  | some 2 => 6 / 5
  | some 3 => 1
  | some 4 => 4 / 5
  | _ => 1

/-- analyzeTeamContext: a constant 1.0 placeholder. -/
def analyzeTeamContext : ℚ := 1

/-- calculateTextSimilarity: per-occurrence common-word count over the
larger token count (both splits are nonempty, so no division by zero). -/
def calculateTextSimilarity (text1 text2 : String) : ℚ :=
  let words1 := jsSplit (jsToLower text1)
  let words2 := jsSplit (jsToLower text2)
  let commonWords := words1.filter (fun word => words2.contains word)
  (commonWords.length : ℚ) / (max words1.length words2.length : ℚ)

/-- findSimilarIssues: among other completed issues with a positive
estimate, keep (in input order) those with title similarity above 0.3 or
the same team id (two absent team ids also compare equal, because
undefined strictly equals undefined), and take the first five. -/
def findSimilarIssues (issues : List Issue) (issue : Issue) : List Issue :=
  let completedIssues := issues.filter (fun i =>
    i.stateType == some "completed" && estPos i && !(i.id == issue.id))
  let similar := completedIssues.filter (fun completedIssue =>
    decide (calculateTextSimilarity issue.title completedIssue.title > 3 / 10)
      || (issue.team == completedIssue.team))
  similar.take 5

/-- The ComplexityAnalysis record built by analyzeIssueComplexity. -/
structure Complexity where
  textComplexity : ℚ
  labelComplexity : ℚ
  priorityWeight : ℚ
  teamComplexity : ℚ
  similarIssues : List Issue
deriving DecidableEq, Repr

/-- analyzeIssueComplexity. -/
def analyzeIssueComplexity (issues : List Issue) (issue : Issue) : Complexity :=
  { textComplexity := analyzeTextComplexity issue.title issue.description
    labelComplexity := analyzeLabelComplexity issue.labels
    priorityWeight := analyzePriority issue.priority
    teamComplexity := analyzeTeamContext
    similarIssues := findSimilarIssues issues issue }

/-- calculateBaseEstimate: 2 scaled by the three complexity factors,
averaged with the mean estimate of similar issues when any exist,
floored at 1. -/
def calculateBaseEstimate (analysis : Complexity) : ℚ :=
  let baseScore := 2 * analysis.textComplexity * analysis.labelComplexity
    * analysis.priorityWeight
  let baseScore2 :=
    if analysis.similarIssues.length > 0 then
      let avgSimilarPoints :=
        (analysis.similarIssues.map estVal).sum / analysis.similarIssues.length
      (baseScore + avgSimilarPoints) / 2
    else baseScore
  max 1 baseScore2

/-- adjustForPersonalVelocity: complexity-preference scaling followed by
a 1.1 buffer when historical accuracy is below 0.5 (a NaN accuracy
triggers no buffer, comparisons with NaN being false). -/
def adjustForPersonalVelocity (velocity : Velocity) (baseEstimate : ℚ) : ℚ :=
  let adjusted :=
    if velocity.complexity = "simple" ∧ baseEstimate > 5 then
      baseEstimate * (6 / 5)
    else if velocity.complexity = "complex" ∧ baseEstimate < 3 then
      baseEstimate * (4 / 5)
    else baseEstimate
  if JNum.jlt velocity.accuracy (JNum.num (1 / 2)) then adjusted * (11 / 10)
  else adjusted

/-- Array.prototype.reduce with no seed, specialised to the
closest-value accumulator of roundToFibonacci (the empty case cannot be
reached on the concrete nonempty scale; reduce would throw there). -/
def reduceClosest (estimate : ℚ) : List ℚ → ℚ
  | [] => 0
  | h :: t =>
    t.foldl (fun prev curr => if |curr - estimate| < |prev - estimate| then curr else prev) h

/-- roundToFibonacci: the scale value with minimal absolute distance to
the estimate, the earliest one winning ties. -/
def roundToFibonacci (estimate : ℚ) : ℚ := reduceClosest estimate FIBONACCI_SEQUENCE

/-- calculateConfidence: 0.5 plus similar-issue, accuracy and text
bonuses, clamped through Math.max/Math.min (so a NaN accuracy yields a
NaN confidence). -/
def calculateConfidence (velocity : Velocity) (analysis : Complexity) : JNum :=
  let c1 : ℚ := if analysis.similarIssues.length > 2 then 1 / 2 + 1 / 5 else 1 / 2
  let c2 := JNum.jadd (JNum.num c1) (JNum.jmul velocity.accuracy (JNum.num (3 / 10)))
  let c3 :=
    if analysis.textComplexity > 4 / 5 ∧ analysis.textComplexity < 2 then
      JNum.jadd c2 (JNum.num (1 / 10))
    else c2
  JNum.jmin (JNum.num (19 / 20)) (JNum.jmax (JNum.num (1 / 10)) c3)

/-- Number.prototype.toFixed(1), modelled on exact rationals (ties go
toward positive infinity; the IEEE tie behaviour differs only on values
no rational in this development produces). -/
def toFixed1 (q : ℚ) : String :=
  let n : Int := ⌊q * 10 + 1 / 2⌋
  let sign := if n < 0 then "-" else ""
  sign ++ toString (n.natAbs / 10) ++ "." ++ toString (n.natAbs % 10)

/-- generateReasoning: the fixed-order conditional note list. -/
def generateReasoning (velocity : Velocity) (analysis : Complexity) : List String :=
  let r1 : List String :=
    if analysis.textComplexity > 3 / 2 then
      ["High technical complexity detected in description"]
    else if analysis.textComplexity < 4 / 5 then
      ["Simple task based on description"]
    else []
  let r2 : List String :=
    if analysis.similarIssues.length > 0 then
      let avgSimilar :=
        (analysis.similarIssues.map estVal).sum / analysis.similarIssues.length
      ["Similar issues averaged " ++ toFixed1 avgSimilar ++ " points"]
    else []
  let r3 : List String :=
    if analysis.priorityWeight > 11 / 10 then
      ["High priority may require extra care and testing"]
    else []
  let r4 : List String :=
    if velocity.complexity ≠ "medium" then
      ["Adjusted for your " ++ velocity.complexity ++ " task preference"]
    else []
  r1 ++ r2 ++ r3 ++ r4

/-- One entry of the alternatives list. -/
structure Alt where
  points : ℚ
  reason : String
deriving DecidableEq, Repr

/-- Array.prototype.indexOf: first index of the value, -1 when absent. -/
def jsIndexOf (l : List ℚ) (x : ℚ) : Int :=
  match l.indexOf? x with
  | some n => n
  | none => -1

/-- JavaScript array indexing as used by generateAlternatives (both
accesses are in range whenever the branch guarding them is taken, so the
default is never produced). -/
def jsGetD (l : List ℚ) (i : Int) : ℚ :=
  if 0 ≤ i then l.getD i.toNat 0 else 0

/-- generateAlternatives: the neighbouring scale values, lower first. -/
def generateAlternatives (mainEstimate : ℚ) : List Alt :=
  let index := jsIndexOf FIBONACCI_SEQUENCE mainEstimate
  let lower : List Alt :=
    if index > 0 then
      [{ points := jsGetD FIBONACCI_SEQUENCE (index - 1)
         reason := "If scope is smaller than expected" }]
    else []
  let higher : List Alt :=
    if index < FIBONACCI_SEQUENCE.length - 1 then
      [{ points := jsGetD FIBONACCI_SEQUENCE (index + 1)
         reason := "If additional complexity emerges" }]
    else []
  lower ++ higher

/-- Math.round(x * 10) / 10, the one-decimal rounding in estimateTimeRequired. -/
def round1 (x : JNum) : JNum :=
  let r : JNum :=
    match JNum.jmul x (JNum.num 10) with
    | JNum.num q => JNum.num (⌊q + 1 / 2⌋ : ℤ)
    | y => y
  JNum.jdiv r (JNum.num 10)

/-- The time estimate record. -/
structure TimeEstimate where
  days : JNum
  hours : JNum
  rangeMin : JNum
  rangeMax : JNum
deriving DecidableEq, Repr

/-- estimateTimeRequired: days and hours from personal time-per-point,
with a ±30 percent range, each rounded to one decimal. -/
def estimateTimeRequired (velocity : Velocity) (points : ℚ) : TimeEstimate :=
  let daysEstimate := JNum.jmul (JNum.num points) velocity.avgTimePerPoint
  let hours := JNum.jmul daysEstimate (JNum.num 8)
  { days := round1 daysEstimate
    hours := round1 hours
    rangeMin := round1 (JNum.jmul hours (JNum.num (7 / 10)))
    rangeMax := round1 (JNum.jmul hours (JNum.num (13 / 10))) }

/-- The Estimate record returned by estimateStoryPoints. -/
structure Estimate where
  suggestedPoints : ℚ
  confidence : JNum
  reasoning : List String
  alternatives : List Alt
  timeEstimate : TimeEstimate
deriving DecidableEq, Repr

/-- estimateStoryPoints: the full pipeline for one issue, for the
estimator constructed over `issues` and the user `userId`. -/
def estimateStoryPoints (issues : List Issue) (userId : String) (issue : Issue) : Estimate :=
  let personalVelocity := calculatePersonalVelocity issues userId
  let analysis := analyzeIssueComplexity issues issue
  let baseEstimate := calculateBaseEstimate analysis
  let adjustedEstimate := adjustForPersonalVelocity personalVelocity baseEstimate
  let fibonacciEstimate := roundToFibonacci adjustedEstimate
  { suggestedPoints := fibonacciEstimate
    confidence := calculateConfidence personalVelocity analysis
    reasoning := generateReasoning personalVelocity analysis
    alternatives := generateAlternatives fibonacciEstimate
    timeEstimate := estimateTimeRequired personalVelocity fibonacciEstimate }

/-- estimateMultipleIssues: the batch map. -/
def estimateMultipleIssues (issues : List Issue) (userId : String)
    (batch : List Issue) : List (Issue × Estimate) :=
  batch.map (fun issue => (issue, estimateStoryPoints issues userId issue))

/-- `item.issue.priority || 3`: priority 0 (unset in Linear) and an
absent priority both fall back to 3. -/
def priorityOr3 (priority : Option Nat) : ℚ :=
  match priority with
  | some p => if p ≠ 0 then p else 3
  | none => 3

/-- One entry of the prioritized list.  The source field name of
`valueEffortQuot` is valueEffortRatio (priority over suggested points). -/
structure PrioritizedItem where
  issue : Issue
  estimate : Estimate
  valueEffortQuot : ℚ
  quickWin : Bool
deriving DecidableEq, Repr

/-- The record returned by getPrioritizationRecommendations. -/
structure Recommendations where
  recommended : List PrioritizedItem
  quickWins : List PrioritizedItem
  totalEffort : ℚ
deriving DecidableEq, Repr

/-- getPrioritizationRecommendations: decorate each batch estimate with
its value-over-effort quotient, sort descending by that quotient
(Array.prototype.sort with comparator b-a, a stable sort), and report
the top five, up to three quick wins, and the total effort over the
whole batch. -/
def getPrioritizationRecommendations (issues : List Issue) (userId : String)
    (batch : List Issue) : Recommendations :=
  let estimates := estimateMultipleIssues issues userId batch
  let prioritized : List PrioritizedItem := estimates.map (fun item =>
    { issue := item.1
      estimate := item.2
      valueEffortQuot := priorityOr3 item.1.priority / item.2.suggestedPoints
      quickWin := decide (item.2.suggestedPoints ≤ (3 : ℚ))
        && decide (priorityOr3 item.1.priority ≥ (2 : ℚ)) })
  let sorted := prioritized.mergeSort
    (fun a b => decide (b.valueEffortQuot ≤ a.valueEffortQuot))
  { recommended := sorted.take 5
    quickWins := (sorted.filter (fun item => item.quickWin)).take 3
    totalEffort := estimates.foldl (fun sum item => sum + item.2.suggestedPoints) (0 : ℚ) }

/-- The assignee of a Linear issue as read by the activity correlator. -/
structure Assignee where
  name : String
  email : String
deriving DecidableEq, Repr

/-- A Linear issue as consumed by correlateLinearWithGitHub. -/
structure CIssue where
  identifier : String
  title : String
  assignee : Option Assignee
  estimate : Option ℚ
deriving DecidableEq, Repr

/-- A GitHub commit as consumed by correlateLinearWithGitHub:
commit.commit.message, commit.author?.login and commit.commit.author.email. -/
structure Commit where
  message : String
  authorLogin : Option String
  authorEmail : String
deriving DecidableEq, Repr

/-- A GitHub pull request as consumed by correlateLinearWithGitHub. -/
structure PullReq where
  title : String
  body : Option String
  userLogin : Option String
deriving DecidableEq, Repr

/-- The Correlation record.  The source field name of `velocityQuot` is
velocityRatio; the source initialises the field to the number 0 and
overwrites it only when the issue has a truthy estimate and a positive
activity score. -/
structure Correlation where
  issue : CIssue
  relatedCommits : List Commit
  relatedPRs : List PullReq
  activityScore : Nat
  velocityQuot : ℚ
deriving DecidableEq, Repr

/-- `issue.estimate &&` truthiness: present and nonzero. -/
def cEstTruthy (o : Option ℚ) : Bool :=
  match o with
  | some q => decide (q ≠ 0)
  | none => false

/-- The keyword list of one issue: its identifier plus the words of its
lowercased title longer than three characters. -/
def issueKeywords (issue : CIssue) : List String :=
  issue.identifier :: (jsSplit (jsToLower issue.title)).filter (fun word => word.length > 3)

/-- `commit.author?.login || commit.commit.author.email`. -/
def commitAuthor (commit : Commit) : String :=
  match commit.authorLogin with
  | some l => if l ≠ "" then l else commit.authorEmail
  | none => commit.authorEmail

/-- The commit-matching predicate of correlateLinearWithGitHub. -/
def commitMatches (issue : CIssue) (assignee : Assignee) (commit : Commit) : Bool :=
  let message := jsToLower commit.message
  (commitAuthor commit == assignee.email || commit.authorLogin == some assignee.name)
    || (issueKeywords issue).any (fun keyword => jsIncludes message (jsToLower keyword))

/-- The pull-request-matching predicate of correlateLinearWithGitHub. -/
def prMatches (issue : CIssue) (assignee : Assignee) (pr : PullReq) : Bool :=
  let title := jsToLower pr.title
  let body := jsToLower (strOr pr.body "")
  (pr.userLogin == some assignee.name)
    || (issueKeywords issue).any (fun keyword =>
        jsIncludes title (jsToLower keyword) || jsIncludes body (jsToLower keyword))

/-- The correlation built for one issue with a defined assignee, before
the positive-activity filter. -/
def buildCorrelation (commits : List Commit) (pullRequests : List PullReq)
    (issue : CIssue) (assignee : Assignee) : Correlation :=
  let relatedCommits := commits.filter (commitMatches issue assignee)
  let relatedPRs := pullRequests.filter (prMatches issue assignee)
  let activityScore := relatedCommits.length + relatedPRs.length * 2
  { issue := issue
    relatedCommits := relatedCommits
    relatedPRs := relatedPRs
    activityScore := activityScore
    velocityQuot :=
      if cEstTruthy issue.estimate ∧ activityScore > 0 then
        issue.estimate.getD 0 / activityScore
      else 0 }

/-- The loop body of correlateLinearWithGitHub for one issue: skip it
without an assignee, build its correlation, keep it only with positive
activity. -/
def correlationFor (commits : List Commit) (pullRequests : List PullReq)
    (issue : CIssue) : Option Correlation :=
  match issue.assignee with
  | none => none
  | some assignee =>
    let correlation := buildCorrelation commits pullRequests issue assignee
    if correlation.activityScore > 0 then some correlation else none

/-- correlateLinearWithGitHub: skip issues without an assignee, build a
correlation per remaining issue, keep only those with positive activity,
and sort descending by activity score (Array.prototype.sort with
comparator b - a, a stable sort). -/
def correlateLinearWithGitHub (issues : List CIssue) (commits : List Commit)
    (pullRequests : List PullReq) : List Correlation :=
  let correlations := issues.filterMap (correlationFor commits pullRequests)
  correlations.mergeSort (fun a b => decide (b.activityScore ≤ a.activityScore))

/-- One step of the reduce accumulator in roundToFibonacci: replace the
running choice only when the candidate is strictly closer. -/
def closerStep (est prev curr : ℚ) : ℚ :=
  if |curr - est| < |prev - est| then curr else prev

/-- The first element of a list with minimal absolute distance to `est`
(0 on the empty list, which no caller reaches). -/
def firstMin (est : ℚ) : List ℚ → ℚ
  | [] => 0
  | [x] => x
  | x :: y :: t =>
    if |firstMin est (y :: t) - est| < |x - est| then firstMin est (y :: t) else x

/-- A completed, estimated issue created and completed at the same
instant: the input exercising the divide-by-zero path of
calculatePersonalVelocity. -/
def zeroDayIssue : Issue :=
  { id := "z1", title := "task", description := none, labels := none,
    priority := none, team := none, estimate := some 3,
    stateType := some "completed", assignee := some "u",
    createdAt := 0, completedAt := 0 }

/-- A completed, estimated issue taking one day. -/
def oneDayIssue : Issue :=
  { id := "d1", title := "task", description := none, labels := none,
    priority := none, team := none, estimate := some 3,
    stateType := some "completed", assignee := some "u",
    createdAt := 0, completedAt := 86400000 }

/-- A plain unestimated issue used as an estimation target in witnesses. -/
def plainIssue : Issue :=
  { id := "w", title := "fix typo", description := none, labels := none,
    priority := some 2, team := none, estimate := none, stateType := none,
    assignee := none, createdAt := 0, completedAt := 0 }

/-- Similarity-search target: title "alpha beta", team T. -/
def simTarget : Issue :=
  { id := "t0", title := "alpha beta", description := none, labels := none,
    priority := none, team := some "T", estimate := none, stateType := none,
    assignee := none, createdAt := 0, completedAt := 0 }

/-- First candidate: unrelated title but the same team (similarity 0). -/
def simIssueA : Issue :=
  { id := "c1", title := "zzzz yyyy", description := none, labels := none,
    priority := none, team := some "T", estimate := some 1,
    stateType := some "completed", assignee := none,
    createdAt := 0, completedAt := 0 }

/-- Second candidate: identical title, different team (similarity 1). -/
def simIssueB : Issue :=
  { id := "c2", title := "alpha beta", description := none, labels := none,
    priority := none, team := some "U", estimate := some 2,
    stateType := some "completed", assignee := none,
    createdAt := 0, completedAt := 0 }

/-- Correlator input: an assigned issue without an estimate. -/
def noEstIssue : CIssue :=
  { identifier := "ENG-1", title := "some issue",
    assignee := some { name := "alice", email := "alice@x.com" },
    estimate := none }

/-- Correlator input: an assigned issue with estimate 3. -/
def estIssue : CIssue :=
  { identifier := "ENG-2", title := "other issue",
    assignee := some { name := "alice", email := "alice@x.com" },
    estimate := some 3 }

/-- A commit by the assignee of the two issues above. -/
def aliceCommit : Commit :=
  { message := "work done", authorLogin := some "alice",
    authorEmail := "alice@x.com" }

/-- The correlation the correlator builds for estIssue and aliceCommit. -/
def estCorrelation : Correlation :=
  buildCorrelation [aliceCommit] [] estIssue
    { name := "alice", email := "alice@x.com" }

/-- The correlation the correlator builds for noEstIssue and aliceCommit. -/
def noEstCorrelation : Correlation :=
  buildCorrelation [aliceCommit] [] noEstIssue
    { name := "alice", email := "alice@x.com" }

/-- firstMin on a nonempty list returns an element of the list. -/
theorem firstMin_mem (est : ℚ) : ∀ (l : List ℚ), l ≠ [] → firstMin est l ∈ l
  | [], h => absurd rfl h
  | [x], _ => by simp [firstMin]
  | x :: y :: t, _ => by
    simp only [firstMin]
    split
    · exact List.mem_cons_of_mem x (firstMin_mem est (y :: t) (by simp))
    · exact List.mem_cons_self x _

/-- firstMin attains the minimal distance to `est` over the list. -/
theorem firstMin_min (est : ℚ) :
    ∀ (l : List ℚ), ∀ x ∈ l, |firstMin est l - est| ≤ |x - est|
  | [] => by simp
  | [a] => by simp [firstMin]
  | a :: b :: t => by
    intro x hx
    simp only [firstMin]
    split
    · rcases List.mem_cons.mp hx with rfl | hx'
      · exact le_of_lt (by assumption)
      · exact firstMin_min est (b :: t) x hx'
    · rcases List.mem_cons.mp hx with rfl | hx'
      · exact le_refl _
      · exact le_trans (not_lt.mp (by assumption)) (firstMin_min est (b :: t) x hx')

/-- Absorbing a strictly-worse head into firstMin. -/
theorem firstMin_cons_cons_lt (est a c : ℚ) (t : List ℚ)
    (h : |c - est| < |a - est|) :
    firstMin est (a :: c :: t) = firstMin est (c :: t) := by
  simp only [firstMin]
  rw [if_pos (lt_of_le_of_lt (firstMin_min est (c :: t) c (List.mem_cons_self c t)) h)]

/-- Dropping a candidate that does not strictly beat the head. -/
theorem firstMin_cons_cons_ge (est a c : ℚ) (t : List ℚ)
    (h : ¬ |c - est| < |a - est|) :
    firstMin est (a :: c :: t) = firstMin est (a :: t) := by
  cases t with
  | nil => simp only [firstMin, if_neg h]
  | cons d t' =>
    by_cases h1 : |firstMin est (d :: t') - est| < |c - est|
    · simp only [firstMin, if_pos h1]
    · have hc : firstMin est (c :: d :: t') = c := by
        simp only [firstMin, if_neg h1]
      have ha : ¬ |firstMin est (d :: t') - est| < |a - est| := by
        intro hcon
        exact h1 (lt_of_lt_of_le hcon (not_lt.mp h))
      calc firstMin est (a :: c :: d :: t')
          = a := by
            simp only [firstMin]
            rw [if_neg h1, if_neg h]
        _ = firstMin est (a :: d :: t') := by
            simp only [firstMin]
            rw [if_neg ha]

/-- The seedless reduce of roundToFibonacci computes firstMin. -/
theorem foldl_closerStep (est : ℚ) :
    ∀ (t : List ℚ) (a : ℚ), List.foldl (closerStep est) a t = firstMin est (a :: t)
  | [], a => by simp [firstMin]
  | c :: t, a => by
    rw [List.foldl_cons]
    by_cases h : |c - est| < |a - est|
    · rw [show closerStep est a c = c from if_pos h, foldl_closerStep est t c,
        firstMin_cons_cons_lt est a c t h]
    · rw [show closerStep est a c = a from if_neg h, foldl_closerStep est t a,
        firstMin_cons_cons_ge est a c t h]

/-- reduceClosest agrees with firstMin on nonempty lists. -/
theorem reduceClosest_eq_firstMin (est : ℚ) (l : List ℚ) (h : l ≠ []) :
    reduceClosest est l = firstMin est l := by
  cases l with
  | nil => exact absurd rfl h
  | cons a t => exact foldl_closerStep est t a

/-- firstMin is the first minimal element: everything before it is
strictly farther from `est`, everything after it at least as far. -/
theorem firstMin_decomp (est : ℚ) : ∀ (l : List ℚ), l ≠ [] →
    ∃ l₁ l₂, l = l₁ ++ firstMin est l :: l₂ ∧
      (∀ x ∈ l₁, |firstMin est l - est| < |x - est|) ∧
      (∀ x ∈ l₂, |firstMin est l - est| ≤ |x - est|)
  | [], h => absurd rfl h
  | [a], _ => ⟨[], [], by simp [firstMin], by simp, by simp⟩
  | a :: b :: t, _ => by
    by_cases h : |firstMin est (b :: t) - est| < |a - est|
    · have he : firstMin est (a :: b :: t) = firstMin est (b :: t) := by
        simp only [firstMin, if_pos h]
      obtain ⟨l₁, l₂, hdec, hlt, hle⟩ := firstMin_decomp est (b :: t) (by simp)
      refine ⟨a :: l₁, l₂, ?_, ?_, ?_⟩
      · rw [he, List.cons_append, ← hdec]
      · intro x hx
        rw [he]
        rcases List.mem_cons.mp hx with rfl | hx'
        · exact h
        · exact hlt x hx'
      · intro x hx
        rw [he]
        exact hle x hx
    · have he : firstMin est (a :: b :: t) = a := by
        simp only [firstMin, if_neg h]
      refine ⟨[], b :: t, by simp [he], by simp, ?_⟩
      intro x hx
      rw [he]
      exact le_trans (not_lt.mp h) (firstMin_min est (b :: t) x hx)

/-- roundToFibonacci always lands on the scale. -/
theorem roundToFibonacci_mem (e : ℚ) : roundToFibonacci e ∈ FIBONACCI_SEQUENCE := by
  rw [roundToFibonacci, reduceClosest_eq_firstMin e FIBONACCI_SEQUENCE (by decide)]
  exact firstMin_mem e FIBONACCI_SEQUENCE (by decide)

/-- Finite addition. -/
theorem jadd_num (a b : ℚ) : JNum.jadd (JNum.num a) (JNum.num b) = JNum.num (a + b) := rfl

/-- Finite multiplication. -/
theorem jmul_num (a b : ℚ) : JNum.jmul (JNum.num a) (JNum.num b) = JNum.num (a * b) := rfl

/-- Finite subtraction. -/
theorem jsub_num (a b : ℚ) : JNum.jsub (JNum.num a) (JNum.num b) = JNum.num (a - b) := by
  simp [JNum.jsub, JNum.jneg, JNum.jadd, sub_eq_add_neg]

/-- Finite division by a nonzero denominator. -/
theorem jdiv_num (a b : ℚ) (h : b ≠ 0) :
    JNum.jdiv (JNum.num a) (JNum.num b) = JNum.num (a / b) := by
  simp [JNum.jdiv, h]

/-- Division of a positive finite numerator by zero produces Infinity. -/
theorem jdiv_pos_zero (a : ℚ) (h : 0 < a) :
    JNum.jdiv (JNum.num a) (JNum.num 0) = JNum.inf := by
  simp [JNum.jdiv, h]

/-- Math.max on finite values. -/
theorem jmax_num (a b : ℚ) :
    JNum.jmax (JNum.num a) (JNum.num b) = JNum.num (max a b) := by
  rcases lt_or_le a b with h | h
  · simp [JNum.jmax, JNum.jlt, h, max_eq_right (le_of_lt h)]
  · simp [JNum.jmax, JNum.jlt, not_lt.mpr h, max_eq_left h]

/-- Math.min on finite values. -/
theorem jmin_num (a b : ℚ) :
    JNum.jmin (JNum.num a) (JNum.num b) = JNum.num (min a b) := by
  rcases lt_or_le b a with h | h
  · simp [JNum.jmin, JNum.jlt, h, min_eq_right (le_of_lt h)]
  · simp [JNum.jmin, JNum.jlt, not_lt.mpr h, min_eq_left h]

/-- ratSqrt never goes negative. -/
theorem ratSqrt_nonneg (q : ℚ) : 0 ≤ ratSqrt q :=
  div_nonneg (Nat.cast_nonneg _) (Nat.cast_nonneg _)

/-- Math.sqrt of a nonnegative finite value is finite and nonnegative. -/
theorem jsqrt_num (q : ℚ) (h : 0 ≤ q) :
    JNum.jsqrt (JNum.num q) = JNum.num (ratSqrt q) := by
  simp [JNum.jsqrt, not_lt.mpr h]

/-- Issues in the qualifying history are completed, owned and positively
estimated. -/
theorem mem_qualifyingIssues (issues : List Issue) (userId : String) (i : Issue)
    (h : i ∈ qualifyingIssues issues userId) :
    i ∈ issues ∧ i.stateType = some "completed" ∧ i.assignee = some userId ∧
      0 < estVal i := by
  obtain ⟨hmem, hcond⟩ := List.mem_filter.mp h
  simp only [Bool.and_eq_true, beq_iff_eq, estPos, decide_eq_true_eq] at hcond
  exact ⟨hmem, hcond.1.1, hcond.1.2, hcond.2⟩

/-- The total of the qualifying estimates is positive when any exist. -/
theorem qualifying_total_pos (issues : List Issue) (userId : String)
    (h : qualifyingIssues issues userId ≠ []) :
    0 < ((qualifyingIssues issues userId).map estVal).sum := by
  apply List.sum_pos
  · intro x hx
    obtain ⟨i, hi, rfl⟩ := List.mem_map.mp hx
    exact (mem_qualifyingIssues issues userId i hi).2.2.2
  · simpa using h

/-- C2: a user with zero qualifying completed, assigned, estimated
issues gets exactly the cold-start default profile
avgPointsPerDay 2, avgTimePerPoint 1, complexity "medium", accuracy 0.5. -/
theorem velocity_default_of_no_history (issues : List Issue) (userId : String)
    (h : qualifyingIssues issues userId = []) :
    calculatePersonalVelocity issues userId =
      { avgPointsPerDay := JNum.num 2, avgTimePerPoint := JNum.num 1,
        complexity := "medium", accuracy := JNum.num (1 / 2) } := by
  unfold calculatePersonalVelocity
  rw [h]
  simp

/-- Witness for C2 at a concrete non-qualifying history. -/
theorem velocity_default_witness :
    calculatePersonalVelocity [plainIssue] "u" =
      { avgPointsPerDay := JNum.num 2, avgTimePerPoint := JNum.num 1,
        complexity := "medium", accuracy := JNum.num (1 / 2) } :=
  velocity_default_of_no_history [plainIssue] "u" (by decide)

/-- C3 is refuted: on a completed issue created and finished at the same
instant, the mean completion time is zero and avgPointsPerDay comes out
as Infinity, not the documented fallback 2 — `totalPoints / 0` is
Infinity, which is truthy, so `|| 2` does not replace it. -/
theorem velocity_guard_counterexample :
    qualifyingIssues [zeroDayIssue] "u" ≠ [] ∧
    meanCompletionDays (qualifyingIssues [zeroDayIssue] "u") = 0 ∧
    (calculatePersonalVelocity [zeroDayIssue] "u").avgPointsPerDay = JNum.inf ∧
    (calculatePersonalVelocity [zeroDayIssue] "u").avgPointsPerDay ≠ JNum.num 2 := by
  have hq : qualifyingIssues [zeroDayIssue] "u" = [zeroDayIssue] := by decide
  have hmean : meanCompletionDays (qualifyingIssues [zeroDayIssue] "u") = 0 := by
    rw [hq]
    norm_num [meanCompletionDays, completionDays, zeroDayIssue, msPerDay]
  have hinf : (calculatePersonalVelocity [zeroDayIssue] "u").avgPointsPerDay = JNum.inf := by
    simp only [calculatePersonalVelocity, hq]
    norm_num [meanCompletionDays, completionDays, zeroDayIssue, msPerDay, estVal,
      JNum.jdiv, JNum.jor, JNum.truthy]
  refine ⟨by simp [hq], hmean, hinf, by simp [hinf]⟩

/-- C3 as amended: with a nonempty qualifying history of mean completion
time zero, avgTimePerPoint does fall back to 1 (0/positive is 0, which
is falsy), but avgPointsPerDay is Infinity, because the positive total
estimate divided by zero is Infinity and Infinity is truthy. -/
theorem velocity_zero_mean_infinity (issues : List Issue) (userId : String)
    (hne : qualifyingIssues issues userId ≠ [])
    (hmean : meanCompletionDays (qualifyingIssues issues userId) = 0) :
    (calculatePersonalVelocity issues userId).avgTimePerPoint = JNum.num 1 ∧
    (calculatePersonalVelocity issues userId).avgPointsPerDay = JNum.inf := by
  have hlen : ¬ (qualifyingIssues issues userId).length = 0 := by
    simpa [List.length_eq_zero] using hne
  have htot : 0 < ((qualifyingIssues issues userId).map estVal).sum :=
    qualifying_total_pos issues userId hne
  have hlenq : (0 : ℚ) < ((qualifyingIssues issues userId).length : ℚ) := by
    exact_mod_cast Nat.pos_of_ne_zero hlen
  have hq : ((qualifyingIssues issues userId).map estVal).sum /
      ((qualifyingIssues issues userId).length : ℚ) ≠ 0 :=
    ne_of_gt (div_pos htot hlenq)
  simp only [calculatePersonalVelocity, if_neg hlen]
  refine ⟨?_, ?_⟩
  · rw [hmean, jdiv_num _ _ hq, zero_div]
    simp [JNum.jor, JNum.truthy]
  · rw [hmean, zero_mul, jdiv_pos_zero _ htot]
    simp [JNum.jor, JNum.truthy]

/-- Witness for the amended C3 at the concrete zero-day history. -/
theorem velocity_zero_mean_witness :
    (calculatePersonalVelocity [zeroDayIssue] "u").avgTimePerPoint = JNum.num 1 ∧
    (calculatePersonalVelocity [zeroDayIssue] "u").avgPointsPerDay = JNum.inf :=
  velocity_zero_mean_infinity [zeroDayIssue] "u" (by decide)
    (by rw [show qualifyingIssues [zeroDayIssue] "u" = [zeroDayIssue] from by decide]
        norm_num [meanCompletionDays, completionDays, zeroDayIssue, msPerDay])

/-- On a history with strictly positive mean completion time, the
estimation-accuracy heuristic is a finite rational in [0.1, 1]. -/
theorem accuracy_bounds (issues : List Issue)
    (h : 0 < meanCompletionDays issues) :
    ∃ a : ℚ, calculateEstimateAccuracy issues = JNum.num a ∧
      1 / 10 ≤ a ∧ a ≤ 1 := by
  simp only [calculateEstimateAccuracy]
  set M : ℚ :=
    ((issues.map completionDays).sum : ℚ) / ((issues.map completionDays).length : ℚ)
    with hMdef
  set V : ℚ :=
    ((issues.map completionDays).map (fun t => (t - M) ^ 2)).sum /
      ((issues.map completionDays).length : ℚ) with hVdef
  have hMpos : 0 < M := by
    rw [hMdef]
    simpa [meanCompletionDays, List.length_map] using h
  have hvar : (0 : ℚ) ≤ V := by
    rw [hVdef]
    apply div_nonneg
    · apply List.sum_nonneg
      intro x hx
      obtain ⟨t, _, rfl⟩ := List.mem_map.mp hx
      positivity
    · positivity
  rw [jsqrt_num _ hvar, jdiv_num _ _ (ne_of_gt hMpos), jsub_num, jmax_num]
  refine ⟨_, rfl, le_max_left _ _, max_le (by norm_num) ?_⟩
  have hdiv : 0 ≤ ratSqrt V / M := div_nonneg (ratSqrt_nonneg V) (le_of_lt hMpos)
  linarith

/-- When the personal accuracy is a finite rational in [0.1, 1], the
confidence of any analysis is a finite rational in [0.5, 0.95]. -/
theorem confidence_of_accuracy (velocity : Velocity) (analysis : Complexity)
    (a : ℚ) (hv : velocity.accuracy = JNum.num a)
    (h1 : 1 / 10 ≤ a) (h2 : a ≤ 1) :
    ∃ c : ℚ, calculateConfidence velocity analysis = JNum.num c ∧
      1 / 2 ≤ c ∧ c ≤ 19 / 20 := by
  simp only [calculateConfidence, hv, jmul_num, jadd_num]
  set b1 : ℚ := if analysis.similarIssues.length > 2 then 1 / 2 + 1 / 5 else 1 / 2 with hb1
  have hb1l : 1 / 2 ≤ b1 := by rw [hb1]; split <;> norm_num
  have hb1u : b1 ≤ 7 / 10 := by rw [hb1]; split <;> norm_num
  set T : ℚ := b1 + a * (3 / 10) with hT
  have hTl : 53 / 100 ≤ T := by
    have : 3 / 100 ≤ a * (3 / 10) := by nlinarith
    rw [hT]; linarith
  have hTu : T ≤ 1 := by
    have : a * (3 / 10) ≤ 3 / 10 := by nlinarith
    rw [hT]; linarith
  by_cases htext : analysis.textComplexity > 4 / 5 ∧ analysis.textComplexity < 2
  · rw [if_pos htext, jmax_num, jmin_num]
    refine ⟨_, rfl, ?_, min_le_left _ _⟩
    have hmx : max (1 / 10) (T + 1 / 10) = T + 1 / 10 := by
      apply max_eq_right; linarith
    rw [hmx]
    apply le_min (by norm_num)
    linarith
  · rw [if_neg htext, jmax_num, jmin_num]
    refine ⟨_, rfl, ?_, min_le_left _ _⟩
    have hmx : max (1 / 10) T = T := by
      apply max_eq_right; linarith
    rw [hmx]
    apply le_min (by norm_num)
    linarith

/-- C8: when the qualifying history is empty, or has strictly positive
mean completion time, the confidence of every estimate is a finite
rational in [0.5, 0.95]: confidence starts at 0.5 and only gains
non-negative bonuses before the [0.1, 0.95] clamp, so the effective
floor is 0.5, tighter than the documented 0.1. -/
theorem confidence_bounds (issues : List Issue) (userId : String) (issue : Issue)
    (h : qualifyingIssues issues userId = [] ∨
      0 < meanCompletionDays (qualifyingIssues issues userId)) :
    ∃ c : ℚ, (estimateStoryPoints issues userId issue).confidence = JNum.num c ∧
      1 / 2 ≤ c ∧ c ≤ 19 / 20 := by
  have hconf : (estimateStoryPoints issues userId issue).confidence =
      calculateConfidence (calculatePersonalVelocity issues userId)
        (analyzeIssueComplexity issues issue) := rfl
  rw [hconf]
  rcases h with hempty | hmean
  · have hlen : (qualifyingIssues issues userId).length = 0 := by
      simp [hempty]
    have hv : (calculatePersonalVelocity issues userId).accuracy = JNum.num (1 / 2) := by
      simp only [calculatePersonalVelocity, if_pos hlen]
    exact confidence_of_accuracy _ _ (1 / 2) hv (by norm_num) (by norm_num)
  · have hne : qualifyingIssues issues userId ≠ [] := by
      intro he
      rw [he] at hmean
      simp [meanCompletionDays] at hmean
    have hlen : ¬ (qualifyingIssues issues userId).length = 0 := by
      simpa [List.length_eq_zero] using hne
    obtain ⟨a, ha, h1, h2⟩ := accuracy_bounds (qualifyingIssues issues userId) hmean
    have hv : (calculatePersonalVelocity issues userId).accuracy = JNum.num a := by
      simp only [calculatePersonalVelocity, if_neg hlen]
      exact ha
    exact confidence_of_accuracy _ _ a hv h1 h2

/-- Witness for C8 with an empty history. -/
theorem confidence_bounds_witness :
    ∃ c : ℚ, (estimateStoryPoints [] "u" plainIssue).confidence = JNum.num c ∧
      1 / 2 ≤ c ∧ c ≤ 19 / 20 :=
  confidence_bounds [] "u" plainIssue (Or.inl rfl)

/-- C1: every estimate suggests a number of points on the Fibonacci
scale, and roundToFibonacci returns the scale value of minimal absolute
distance to its argument, the earliest such value winning ties under
the left-to-right reduce scan. -/
theorem fib_membership_and_tiebreak (issues : List Issue) (userId : String)
    (issue : Issue) (q : ℚ) :
    (estimateStoryPoints issues userId issue).suggestedPoints ∈ FIBONACCI_SEQUENCE ∧
    ∃ l₁ l₂, FIBONACCI_SEQUENCE = l₁ ++ roundToFibonacci q :: l₂ ∧
      (∀ x ∈ l₁, |roundToFibonacci q - q| < |x - q|) ∧
      (∀ x ∈ l₂, |roundToFibonacci q - q| ≤ |x - q|) := by
  constructor
  · exact roundToFibonacci_mem _
  · rw [roundToFibonacci, reduceClosest_eq_firstMin q _ (by decide)]
    exact firstMin_decomp q FIBONACCI_SEQUENCE (by decide)

/-- C9: for a scale value, the alternatives list is never empty: only
the next-higher neighbour at 1, only the next-lower neighbour at 34,
and exactly the two neighbours, lower first, in between. -/
theorem alternatives_spec (p : ℚ) (hp : p ∈ FIBONACCI_SEQUENCE) :
    generateAlternatives p ≠ [] ∧
    (p = 1 → (generateAlternatives p).map Alt.points = [2]) ∧
    (p = 34 → (generateAlternatives p).map Alt.points = [21]) ∧
    (p ≠ 1 → p ≠ 34 → ∃ lo hi,
      (generateAlternatives p).map Alt.points = [lo, hi] ∧
      lo ∈ FIBONACCI_SEQUENCE ∧ hi ∈ FIBONACCI_SEQUENCE ∧ lo < p ∧ p < hi) := by
  simp only [FIBONACCI_SEQUENCE, List.mem_cons, List.not_mem_nil, or_false] at hp
  rcases hp with rfl | rfl | rfl | rfl | rfl | rfl | rfl | rfl
  · exact ⟨by decide, by decide, by decide, fun h _ => absurd rfl h⟩
  · exact ⟨by decide, by decide, by decide,
      fun _ _ => ⟨1, 3, by decide, by decide, by decide, by decide, by decide⟩⟩
  · exact ⟨by decide, by decide, by decide,
      fun _ _ => ⟨2, 5, by decide, by decide, by decide, by decide, by decide⟩⟩
  · exact ⟨by decide, by decide, by decide,
      fun _ _ => ⟨3, 8, by decide, by decide, by decide, by decide, by decide⟩⟩
  · exact ⟨by decide, by decide, by decide,
      fun _ _ => ⟨5, 13, by decide, by decide, by decide, by decide, by decide⟩⟩
  · exact ⟨by decide, by decide, by decide,
      fun _ _ => ⟨8, 21, by decide, by decide, by decide, by decide, by decide⟩⟩
  · exact ⟨by decide, by decide, by decide,
      fun _ _ => ⟨13, 34, by decide, by decide, by decide, by decide, by decide⟩⟩
  · exact ⟨by decide, by decide, by decide, fun _ h => absurd rfl h⟩

/-- Witness for C9 at the bottom of the scale. -/
theorem alternatives_witness :
    (generateAlternatives 1).map Alt.points = [2] :=
  (alternatives_spec 1 (by decide)).2.1 rfl

/-- Every output correlation is the one built for some input issue with
a defined assignee, and passed the positive-activity filter. -/
theorem mem_correlateLinear (issues : List CIssue) (commits : List Commit)
    (prs : List PullReq) (c : Correlation)
    (hc : c ∈ correlateLinearWithGitHub issues commits prs) :
    ∃ issue ∈ issues, ∃ assignee, issue.assignee = some assignee ∧
      c = buildCorrelation commits prs issue assignee ∧ 0 < c.activityScore := by
  simp only [correlateLinearWithGitHub] at hc
  have hc' := (List.mergeSort_perm _ _).mem_iff.mp hc
  obtain ⟨issue, hmem, heq⟩ := List.mem_filterMap.mp hc'
  simp only [correlationFor] at heq
  cases ha : issue.assignee with
  | none => rw [ha] at heq; simp at heq
  | some assignee =>
    rw [ha] at heq
    simp only at heq
    by_cases hpos : (buildCorrelation commits prs issue assignee).activityScore > 0
    · rw [if_pos hpos] at heq
      obtain rfl := Option.some.inj heq
      exact ⟨issue, hmem, assignee, ha, rfl, hpos⟩
    · rw [if_neg hpos] at heq
      cases heq

/-- C5: every correlation the Activity Correlator returns has a strictly
positive activity score, an assigned issue, and the score is the commit
count plus twice the pull-request count. -/
theorem activity_positive_in_output (issues : List CIssue) (commits : List Commit)
    (prs : List PullReq) (c : Correlation)
    (hc : c ∈ correlateLinearWithGitHub issues commits prs) :
    0 < c.activityScore ∧ c.issue.assignee ≠ none ∧
    c.activityScore = c.relatedCommits.length + 2 * c.relatedPRs.length := by
  obtain ⟨issue, _, assignee, ha, rfl, hpos⟩ :=
    mem_correlateLinear issues commits prs c hc
  refine ⟨hpos, ?_, ?_⟩
  · show (buildCorrelation commits prs issue assignee).issue.assignee ≠ none
    simp [buildCorrelation, ha]
  · simp only [buildCorrelation]
    omega

/-- Witness for C5 at a one-issue, one-commit instance. -/
theorem activity_positive_witness :
    0 < estCorrelation.activityScore ∧ estCorrelation.issue.assignee ≠ none ∧
    estCorrelation.activityScore =
      estCorrelation.relatedCommits.length + 2 * estCorrelation.relatedPRs.length :=
  activity_positive_in_output [estIssue] [aliceCommit] [] estCorrelation
    (by simp only [correlateLinearWithGitHub]
        exact (List.mergeSort_perm _ _).mem_iff.mpr
          (by rw [show List.filterMap (correlationFor [aliceCommit] []) [estIssue]
                    = [estCorrelation] from rfl]
              exact List.mem_singleton_self estCorrelation))

/-- C10: the Activity Correlator returns its correlations sorted in
descending order of activity score. -/
theorem correlations_sorted_desc (issues : List CIssue) (commits : List Commit)
    (prs : List PullReq) :
    (correlateLinearWithGitHub issues commits prs).Pairwise
      (fun a b => b.activityScore ≤ a.activityScore) := by
  simp only [correlateLinearWithGitHub]
  apply List.Pairwise.imp (fun {a b} h => of_decide_eq_true h)
  exact List.sorted_mergeSort
    (fun a b c hab hbc => by
      simp only [decide_eq_true_eq] at *
      exact le_trans hbc hab)
    (fun a b => by
      simp only [Bool.or_eq_true, decide_eq_true_eq]
      exact le_total b.activityScore a.activityScore)
    _

/-- C4 is refuted: an assigned issue with no estimate but matching
activity appears in the output with velocityRatio equal to the number 0
(its initial value), not an absent field. -/
theorem velocityQuot_zero_counterexample :
    (correlateLinearWithGitHub [noEstIssue] [aliceCommit] []).map
      (fun c => (c.issue.estimate, c.activityScore, c.velocityQuot)) =
      [(none, 1, 0)] := by
  simp only [correlateLinearWithGitHub]
  rw [show List.filterMap (correlationFor [aliceCommit] []) [noEstIssue]
        = [noEstCorrelation] from rfl]
  rw [List.mergeSort_singleton]
  decide

/-- C4 as amended: in every output correlation, velocityRatio equals
estimate over activityScore when the estimate is truthy (present and
nonzero; the score is positive throughout the output), and is the
number 0 — not an absent value — otherwise. -/
theorem velocityQuot_amended (issues : List CIssue) (commits : List Commit)
    (prs : List PullReq) (c : Correlation)
    (hc : c ∈ correlateLinearWithGitHub issues commits prs) :
    (cEstTruthy c.issue.estimate = true →
      c.velocityQuot = c.issue.estimate.getD 0 / (c.activityScore : ℚ)) ∧
    (cEstTruthy c.issue.estimate = false → c.velocityQuot = 0) := by
  obtain ⟨issue, _, assignee, ha, rfl, hpos⟩ :=
    mem_correlateLinear issues commits prs c hc
  have hie : (buildCorrelation commits prs issue assignee).issue = issue := rfl
  rw [hie]
  constructor
  · intro ht
    show (buildCorrelation commits prs issue assignee).velocityQuot = _
    simp only [buildCorrelation] at hpos ⊢
    rw [if_pos ⟨ht, hpos⟩]
  · intro hf
    show (buildCorrelation commits prs issue assignee).velocityQuot = 0
    simp only [buildCorrelation]
    rw [if_neg (fun hcon => by rw [hf] at hcon; exact Bool.false_ne_true hcon.1)]

/-- Witness for the amended C4 at a one-issue, one-commit instance with
a truthy estimate. -/
theorem velocityQuot_amended_witness :
    estCorrelation.velocityQuot =
      estCorrelation.issue.estimate.getD 0 / (estCorrelation.activityScore : ℚ) :=
  (velocityQuot_amended [estIssue] [aliceCommit] [] estCorrelation
    (by simp only [correlateLinearWithGitHub]
        exact (List.mergeSort_perm _ _).mem_iff.mpr
          (by rw [show List.filterMap (correlationFor [aliceCommit] []) [estIssue]
                    = [estCorrelation] from rfl]
              exact List.mem_singleton_self estCorrelation))).1 (by decide)

/-- A seeded reduce of additions computes the seed plus the sum. -/
theorem foldl_add_eq_sum {α : Type} (f : α → ℚ) :
    ∀ (l : List α) (init : ℚ),
      l.foldl (fun s x => s + f x) init = init + (l.map f).sum
  | [], init => by simp
  | x :: t, init => by
    simp only [List.foldl_cons, List.map_cons, List.sum_cons]
    rw [foldl_add_eq_sum f t (init + f x)]
    ring

/-- C6: the recommended list is the sorted-descending (by
value-over-effort) head of the batch, each entry carries the quotient of
its defaulted priority by its own suggested points, and totalEffort sums
the suggested points of the whole input batch, not only the top five. -/
theorem prioritization_sorted_total (issues : List Issue) (userId : String)
    (batch : List Issue) :
    ((getPrioritizationRecommendations issues userId batch).recommended).Pairwise
      (fun a b => b.valueEffortQuot ≤ a.valueEffortQuot) ∧
    (∀ it ∈ (getPrioritizationRecommendations issues userId batch).recommended,
      it.estimate = estimateStoryPoints issues userId it.issue ∧
      it.valueEffortQuot = priorityOr3 it.issue.priority / it.estimate.suggestedPoints) ∧
    (getPrioritizationRecommendations issues userId batch).totalEffort =
      (batch.map (fun i => (estimateStoryPoints issues userId i).suggestedPoints)).sum := by
  refine ⟨?_, ?_, ?_⟩
  · simp only [getPrioritizationRecommendations]
    apply List.Pairwise.sublist (List.take_sublist _ _)
    apply List.Pairwise.imp (fun {a b} h => of_decide_eq_true h)
    exact List.sorted_mergeSort
      (fun a b c hab hbc => by
        simp only [decide_eq_true_eq] at *
        exact le_trans hbc hab)
      (fun a b => by
        simp only [Bool.or_eq_true, decide_eq_true_eq]
        exact le_total b.valueEffortQuot a.valueEffortQuot)
      _
  · intro it hit
    simp only [getPrioritizationRecommendations] at hit
    have h2 := (List.take_sublist _ _).subset hit
    have h3 := (List.mergeSort_perm _ _).mem_iff.mp h2
    obtain ⟨item, hin, rfl⟩ := List.mem_map.mp h3
    exact ⟨by
      simp only [estimateMultipleIssues] at hin
      obtain ⟨i, _, rfl⟩ := List.mem_map.mp hin
      rfl, rfl⟩
  · simp only [getPrioritizationRecommendations, estimateMultipleIssues]
    rw [List.foldl_map, foldl_add_eq_sum (fun i => (estimateStoryPoints issues userId i).suggestedPoints) batch 0]
    simp

/-- Witness for C6 on a one-issue batch. -/
theorem prioritization_witness :
    (getPrioritizationRecommendations [] "u" [plainIssue]).totalEffort =
      ([plainIssue].map (fun i => (estimateStoryPoints [] "u" i).suggestedPoints)).sum :=
  (prioritization_sorted_total [] "u" [plainIssue]).2.2

/-- C7 is refuted on ordering: with a same-team zero-similarity
candidate listed before an identically-titled one, the output keeps the
input order even though the second candidate is strictly more similar,
so the sequence is not most-similar first. -/
theorem similar_order_counterexample :
    (findSimilarIssues [simIssueA, simIssueB] simTarget).map Issue.id = ["c1", "c2"] ∧
    calculateTextSimilarity simTarget.title simIssueA.title <
      calculateTextSimilarity simTarget.title simIssueB.title := by
  have hsA : calculateTextSimilarity simTarget.title simIssueA.title = 0 := by
    simp only [calculateTextSimilarity]
    rw [show ((jsSplit (jsToLower simTarget.title)).filter
        (fun w => (jsSplit (jsToLower simIssueA.title)).contains w)).length = 0 from by decide]
    norm_num
  have hsB : calculateTextSimilarity simTarget.title simIssueB.title = 1 := by
    simp only [calculateTextSimilarity]
    rw [show ((jsSplit (jsToLower simTarget.title)).filter
        (fun w => (jsSplit (jsToLower simIssueB.title)).contains w)).length = 2 from by decide]
    rw [show (jsSplit (jsToLower simTarget.title)).length = 2 from by decide]
    rw [show (jsSplit (jsToLower simIssueB.title)).length = 2 from by decide]
    norm_num
  refine ⟨?_, ?_⟩
  · have hfA : (decide (calculateTextSimilarity simTarget.title simIssueA.title > 3 / 10)
        || (simTarget.team == simIssueA.team)) = true := by
      simp only [Bool.or_eq_true, decide_eq_true_eq]
      right
      decide
    have hfB : (decide (calculateTextSimilarity simTarget.title simIssueB.title > 3 / 10)
        || (simTarget.team == simIssueB.team)) = true := by
      simp only [Bool.or_eq_true, decide_eq_true_eq]
      left
      rw [hsB]
      norm_num
    simp only [findSimilarIssues]
    rw [show List.filter (fun i =>
        i.stateType == some "completed" && estPos i && !(i.id == simTarget.id))
        [simIssueA, simIssueB] = [simIssueA, simIssueB] from by decide]
    simp only [List.filter_cons, List.filter_nil, hfA, hfB, if_true]
    decide
  · rw [hsA, hsB]
    norm_num

/-- C7 as amended: similarIssues is at most five issues, each another
completed issue with a positive estimate, kept in the input iteration
order (a sublist of the input), with no ranking by similarity. -/
theorem similar_inputorder_amended (issues : List Issue) (issue : Issue) :
    (findSimilarIssues issues issue).length ≤ 5 ∧
    (findSimilarIssues issues issue).Sublist issues ∧
    ∀ i ∈ findSimilarIssues issues issue,
      i.stateType = some "completed" ∧ 0 < estVal i ∧ i.id ≠ issue.id := by
  refine ⟨?_, ?_, ?_⟩
  · simp only [findSimilarIssues]
    apply List.length_take_le
  · simp only [findSimilarIssues]
    exact (List.take_sublist _ _).trans
      ((List.filter_sublist _).trans (List.filter_sublist _))
  · intro i hi
    simp only [findSimilarIssues] at hi
    have h1 : i ∈ issues.filter (fun i =>
        i.stateType == some "completed" && estPos i && !(i.id == issue.id)) :=
      (List.filter_sublist _).subset ((List.take_sublist _ _).subset hi)
    obtain ⟨_, hcond⟩ := List.mem_filter.mp h1
    simp only [Bool.and_eq_true, beq_iff_eq, estPos, decide_eq_true_eq,
      Bool.not_eq_true', beq_eq_false_iff_ne] at hcond
    exact ⟨hcond.1.1, hcond.1.2, hcond.2⟩

/-- Witness for the amended C7 at the concrete two-candidate instance. -/
theorem similar_inputorder_witness :
    (findSimilarIssues [simIssueA, simIssueB] simTarget).length ≤ 5 ∧
    (findSimilarIssues [simIssueA, simIssueB] simTarget).Sublist
      [simIssueA, simIssueB] :=
  ⟨(similar_inputorder_amended [simIssueA, simIssueB] simTarget).1,
   (similar_inputorder_amended [simIssueA, simIssueB] simTarget).2.1⟩
